import Mathlib

/-
  Verification development for the nodehub-api-bun reconciliation core:
  availability monitor, DNS provider adapter, DNS reconciliation queue and
  configuration-template renderer, shallowly embedded from the TypeScript
  sources.
-/

set_option linter.unusedVariables false

namespace NodeHub

/-! ## Availability monitor (MonitorWorker, host service, telegram utility) -/

/-- A JavaScript numeric field as it may appear on a host record at runtime:
a number, SQL NULL (JS `null`), or an absent property (JS `undefined`). -/
inductive JsVal where
  | undef : JsVal
  | null : JsVal
  | num : Int → JsVal
deriving DecidableEq

/-- JavaScript truthiness test on such a field: `undefined`, `null` and `0`
are falsy. -/
def JsVal.falsy : JsVal → Bool
  | .undef => true
  | .null => true
  | .num n => n == 0

/-- The JavaScript coercion `x || 0`, as in `host.lastHeartbeat || 0`. -/
def JsVal.orZero : JsVal → Int
  | .num n => n
  | _ => 0

/-- JavaScript numeric coercion; `none` stands for NaN (from `undefined`),
`null` coerces to 0. -/
def jsToNum : JsVal → Option Rat
  | JsVal.undef => none
  | JsVal.null => some 0
  | JsVal.num n => some (n : Rat)

/-- A row of the `hosts` table, restricted to the fields the monitor reads.
`status` is a NOT NULL column (default `'unknown'`); `lastHeartbeat`,
`diskUsed` are nullable; `diskTotal` is NOT NULL in the schema but the
monitor code re-checks it dynamically, so it is given the full domain. -/
structure HostRow where
  name : String
  status : String
  lastHeartbeat : JsVal
  diskTotal : JsVal
  diskUsed : JsVal
deriving DecidableEq

/-- ECMAScript time-value range check: `new Date(ms).toISOString()` throws a
RangeError when `|ms|` exceeds 8.64e15. -/
def dateInRange (ms : Int) : Bool := ms.natAbs ≤ 8640000000000000

/-- `notifyHostOffline(hostName, lastHeartbeat)` from the telegram utility:
when `lastHeartbeat` is truthy the metadata is built with
`new Date(lastHeartbeat * 1000).toISOString()`, which throws for
out-of-range time values; afterwards the telegram `send` runs (it catches
every error of its own).  The result is the name of the host for which a
notification was attempted. -/
def notifyHostOffline (name : String) (lastHeartbeat : Int) : Except Unit String :=
  if lastHeartbeat != 0 && !dateInRange (lastHeartbeat * 1000) then Except.error ()
  else Except.ok name

/-- `MonitorWorker` configuration (the fields that influence a sweep). -/
structure MonitorConfig where
  hostHeartbeatTimeout : Int
  notifyOnHostOffline : Bool
  notifyOnLowDisk : Bool
  diskThreshold : Rat
deriving DecidableEq

/-- The defaults of `MonitorWorker.config`. -/
def monitorDefaultConfig : MonitorConfig :=
  { hostHeartbeatTimeout := 300
    notifyOnHostOffline := true
    notifyOnLowDisk := true
    diskThreshold := 90 }

/-- Loop body of `checkHostHeartbeats` for one host: skip hosts already
`offline`; otherwise, when the heartbeat is stale and both the
offline-notification flag and the telegram notifier are enabled, attempt a
notification (which may throw, see `notifyHostOffline`). -/
def hostHeartbeatStep (cfg : MonitorConfig) (telegramEnabled : Bool) (now : Int)
    (host : HostRow) : Except Unit (Option String) :=
  if host.status == "offline" then Except.ok none
  else
    let lastHeartbeat := host.lastHeartbeat.orZero
    if now - lastHeartbeat > cfg.hostHeartbeatTimeout then
      if cfg.notifyOnHostOffline && telegramEnabled then
        (notifyHostOffline host.name lastHeartbeat).map some
      else Except.ok none
    else Except.ok none

/-- The `for (const host of hosts)` loop of `checkHostHeartbeats`.  Returns
the names of the hosts whose loop body was entered, the notifications
attempted, and whether an exception aborted the loop. -/
def heartbeatLoop (cfg : MonitorConfig) (telegramEnabled : Bool) (now : Int) :
    List HostRow → List String × List String × Bool
  | [] => ([], [], false)
  | host :: rest =>
    match hostHeartbeatStep cfg telegramEnabled now host with
    | Except.error _ => ([host.name], [], true)
    | Except.ok notified =>
      let r := heartbeatLoop cfg telegramEnabled now rest
      (host.name :: r.1,
       (match notified with | some n => n :: r.2.1 | none => r.2.1),
       r.2.2)

/-- Effect of `markOfflineHosts` (host service) on a single row: the SQL
`UPDATE ... WHERE lastHeartbeat < threshold AND status = 'online'` with
`threshold = now - timeoutSeconds`; a NULL `lastHeartbeat` never matches. -/
def hostMarkOffline (timeoutSeconds now : Int) (h : HostRow) : HostRow :=
  match h.lastHeartbeat with
  | JsVal.num t =>
    if t < now - timeoutSeconds && h.status == "online"
    then { h with status := "offline" } else h
  | _ => h

/-- `markOfflineHosts(timeoutSeconds)` applied to the whole hosts table. -/
def markOfflineHosts (timeoutSeconds now : Int) (hosts : List HostRow) : List HostRow :=
  hosts.map (hostMarkOffline timeoutSeconds now)

/-- Result of the heartbeat phase of one sweep. -/
structure HeartbeatResult where
  processed : List String
  notifications : List String
  aborted : Bool
  hostsAfter : List HostRow
deriving DecidableEq

/-- `checkHostHeartbeats`: run the notification loop, then persist offline
statuses with `markOfflineHosts`.  The try/catch wraps the whole phase, so
an exception thrown while evaluating one host abandons the rest of the loop
and the `markOfflineHosts` call. -/
def checkHostHeartbeats (cfg : MonitorConfig) (telegramEnabled : Bool) (now : Int)
    (hosts : List HostRow) : HeartbeatResult :=
  let r := heartbeatLoop cfg telegramEnabled now hosts
  { processed := r.1
    notifications := r.2.1
    aborted := r.2.2
    hostsAfter := if r.2.2 then hosts else markOfflineHosts cfg.hostHeartbeatTimeout now hosts }

/-- The skip guard of `checkDiskSpace`:
`if (!host.diskTotal || host.diskUsed === undefined) continue`. -/
def diskSkip (h : HostRow) : Bool :=
  h.diskTotal.falsy || h.diskUsed == JsVal.undef

/-- The operands of `host.diskUsed / host.diskTotal`, evaluated only when the
guard does not skip the host (`none` when it skips). -/
def diskDivision (h : HostRow) : Option (Rat × Rat) :=
  if diskSkip h then none
  else
    match jsToNum h.diskUsed, jsToNum h.diskTotal with
    | some u, some t => some (u, t)
    | _, _ => none

/-- `diskUsagePercent = (host.diskUsed / host.diskTotal) * 100`, when
evaluated. -/
def diskUsagePercent (h : HostRow) : Option Rat :=
  (diskDivision h).map (fun p => p.1 / p.2 * 100)

/-- A low-disk notification attempt. -/
structure DiskNotif where
  name : String
  percent : Rat
deriving DecidableEq

/-- Loop body of `checkDiskSpace` for one host.  Nothing in this body can
throw: the telegram send catches all of its own errors and no date
conversion is involved. -/
def checkDiskStep (cfg : MonitorConfig) (telegramEnabled : Bool) (h : HostRow) :
    Option DiskNotif :=
  match diskUsagePercent h with
  | none => none
  | some pct =>
    if decide (pct ≥ cfg.diskThreshold) then
      (if cfg.notifyOnLowDisk && telegramEnabled then some ⟨h.name, pct⟩ else none)
    else none

/-- `checkDiskSpace`: evaluates every host; returns the names of the hosts
whose loop body was entered and the low-disk notifications attempted. -/
def checkDiskSpace (cfg : MonitorConfig) (telegramEnabled : Bool)
    (hosts : List HostRow) : List String × List DiskNotif :=
  (hosts.map HostRow.name, hosts.filterMap (checkDiskStep cfg telegramEnabled))

/-- Result of one full monitor sweep (`runCheck`). -/
structure SweepResult where
  hbProcessed : List String
  hbNotifications : List String
  hbAborted : Bool
  hostsAfter : List HostRow
  diskProcessed : List String
  diskNotifications : List DiskNotif
deriving DecidableEq

/-- One monitor sweep (`MonitorWorker.runCheck`): heartbeat phase in its own
try/catch, then the disk phase over the persisted state.  A failure inside
one phase never reaches the other. -/
def runCheck (cfg : MonitorConfig) (telegramEnabled : Bool) (now : Int)
    (hosts : List HostRow) : SweepResult :=
  let hb := checkHostHeartbeats cfg telegramEnabled now hosts
  let dk := checkDiskSpace cfg telegramEnabled hb.hostsAfter
  { hbProcessed := hb.processed
    hbNotifications := hb.notifications
    hbAborted := hb.aborted
    hostsAfter := hb.hostsAfter
    diskProcessed := dk.1
    diskNotifications := dk.2 }

/-- The condition under which the heartbeat loop attempts a notification for
a host (status not `offline`, stale heartbeat, both notification switches
on). -/
def notifyCond (cfg : MonitorConfig) (tg : Bool) (now : Int) (x : HostRow) : Bool :=
  !(x.status == "offline")
    && decide (now - x.lastHeartbeat.orZero > cfg.hostHeartbeatTimeout)
    && (cfg.notifyOnHostOffline && tg)

/-- A host whose stored status is `'unknown'` with a stale heartbeat. -/
def c1Host : HostRow :=
  { name := "h1", status := "unknown", lastHeartbeat := JsVal.num 0
    diskTotal := JsVal.num 100, diskUsed := JsVal.num 10 }

/-- A host whose `lastHeartbeat` makes `new Date(lastHeartbeat * 1000)`
invalid, so that `notifyHostOffline` throws while the monitor evaluates it. -/
def c6HostBad : HostRow :=
  { name := "h1", status := "online", lastHeartbeat := JsVal.num (-(10 ^ 16))
    diskTotal := JsVal.num 100, diskUsed := JsVal.num 10 }

/-- A second, perfectly ordinary stale online host, listed after
`c6HostBad`. -/
def c6HostStale : HostRow :=
  { name := "h2", status := "online", lastHeartbeat := JsVal.num 0
    diskTotal := JsVal.num 100, diskUsed := JsVal.num 10 }

/-- Host with `diskTotal = 0`, which the disk-space guard must skip. -/
def c9HostZero : HostRow :=
  { name := "h0", status := "online", lastHeartbeat := JsVal.num 0
    diskTotal := JsVal.num 0, diskUsed := JsVal.num 5 }

/-- Host with known disk numbers, for which the division is evaluated. -/
def c9HostFull : HostRow :=
  { name := "h9", status := "online", lastHeartbeat := JsVal.num 0
    diskTotal := JsVal.num 100, diskUsed := JsVal.num 95 }

/-! ## DNS provider (CloudflareProvider)

The provider is embedded against an abstract HTTP backend: each vendor
endpoint is a function from the call's arguments and the external state to
either a thrown transport error (`Except.error`) or the parsed JSON
response, plus the next external state.  A vendor-API error that arrives as
a well-formed response is `success := false`; a transport error (rejected
`fetch`) is `Except.error`. -/

/-- A parsed Cloudflare API response body: `success` flag and result list. -/
structure ApiResp (α : Type) where
  success : Bool
  result : List α
deriving DecidableEq

/-- The fields of a DNS record object that the adapter reads. -/
structure CfRec where
  id : Nat
  content : String
deriving DecidableEq

/-- The four vendor endpoints used by the adapter, over external state `σ`. -/
structure CfBackend (σ : Type) where
  zonesQ : String → σ → Except Unit (ApiResp String) × σ
  recordsQ : String → String → String → σ → Except Unit (ApiResp CfRec) × σ
  putQ : String → Nat → String → σ → Except Unit (ApiResp Unit) × σ
  postQ : String → String → String → String → σ → Except Unit (ApiResp Unit) × σ

namespace CloudflareProvider

variable {σ : Type}

/-- `getBaseDomain`: the last two dot-separated labels of the domain. -/
def getBaseDomain (domain : String) : String :=
  let parts := domain.splitOn "."
  if parts.length ≥ 2 then String.intercalate "." (parts.drop (parts.length - 2))
  else domain

/-- `getZoneId`: query zones by base domain; catches its own errors and
returns null on transport error, unsuccessful response or empty result. -/
def getZoneId (B : CfBackend σ) (domain : String) (s : σ) : Option String × σ :=
  match B.zonesQ (getBaseDomain domain) s with
  | (Except.error _, s1) => (none, s1)
  | (Except.ok data, s1) =>
    if data.success && !data.result.isEmpty then (data.result.head?, s1)
    else (none, s1)

/-- `findRecord`: query records by `(zone, name, type)`; catches its own
errors and returns null when nothing usable comes back. -/
def findRecord (B : CfBackend σ) (zoneId domain rtype : String) (s : σ) :
    Option CfRec × σ :=
  match B.recordsQ zoneId domain rtype s with
  | (Except.error _, s1) => (none, s1)
  | (Except.ok data, s1) =>
    if data.success && !data.result.isEmpty then (data.result.head?, s1)
    else (none, s1)

/-- `this.zoneId || (await this.getZoneId(domain))`: a configured zone id is
used unless it is absent or the empty string (falsy). -/
def effectiveZoneId (B : CfBackend σ) (zoneCfg : Option String) (domain : String)
    (s : σ) : Option String × σ :=
  match zoneCfg with
  | some z => if z = "" then getZoneId B domain s else (some z, s)
  | none => getZoneId B domain s

/-- `updateRecord(domain, type, value)`: resolve the zone (throwing, caught
below, when none can be determined), look the record up by
`(zone, name, type)`, then PUT to the found record's id or POST a new
record.  The write's response body is never inspected; only a thrown
transport error reaches the surrounding catch, which returns false. -/
def updateRecord (B : CfBackend σ) (zoneCfg : Option String)
    (domain rtype value : String) (s : σ) : Bool × σ :=
  match effectiveZoneId B zoneCfg domain s with
  | (none, s1) => (false, s1)
  | (some zid, s1) =>
    match findRecord B zid domain rtype s1 with
    | (some rec, s2) =>
      match B.putQ zid rec.id value s2 with
      | (Except.error _, s3) => (false, s3)
      | (Except.ok _, s3) => (true, s3)
    | (none, s2) =>
      match B.postQ zid domain rtype value s2 with
      | (Except.error _, s3) => (false, s3)
      | (Except.ok _, s3) => (true, s3)

/-- `getRecord(domain, type)`: resolve the zone, find the record and return
`record?.content || null` (so an empty content string also comes back as
null); every error is caught and reported as null. -/
def getRecord (B : CfBackend σ) (zoneCfg : Option String) (domain rtype : String)
    (s : σ) : Option String × σ :=
  match effectiveZoneId B zoneCfg domain s with
  | (none, s1) => (none, s1)
  | (some zid, s1) =>
    match findRecord B zid domain rtype s1 with
    | (some rec, s2) => (if rec.content = "" then none else some rec.content, s2)
    | (none, s2) => (none, s2)

end CloudflareProvider

/-! ### An honest single-zone vendor state, for the find-then-write claims -/

/-- A record stored by the vendor. -/
structure SrvRec where
  id : Nat
  rname : String
  rtype : String
  content : String
deriving DecidableEq

/-- The vendor's single-zone server state: stored records and the next
fresh record id. -/
structure CfServer where
  records : List SrvRec
  nextId : Nat
deriving DecidableEq

/-- The server-side predicate for a lookup by `(name, type)`. -/
def srvMatches (d rt : String) (r : SrvRec) : Bool :=
  r.rname == d && r.rtype == rt

/-- Server-side effect of a PUT on one stored record: rewrite the content
of the record addressed by id. -/
def srvPut (rid : Nat) (v : String) (r : SrvRec) : SrvRec :=
  if r.id == rid then { r with content := v } else r

/-- A backend whose calls are answered by the single-zone server: record
queries filter by `(name, type)`, PUT rewrites the addressed record's
content, POST appends a record under a fresh id. -/
def serverBackend : CfBackend CfServer :=
  { zonesQ := fun _ s => (Except.ok ⟨true, ["zone1"]⟩, s)
    recordsQ := fun _ d rt s =>
      (Except.ok ⟨true, ((s.records.filter (srvMatches d rt)).map
        (fun r => ⟨r.id, r.content⟩))⟩, s)
    putQ := fun _ rid v s =>
      (Except.ok ⟨true, []⟩,
       { s with records := s.records.map (srvPut rid v) })
    postQ := fun _ d rt v s =>
      (Except.ok ⟨true, []⟩,
       { records := s.records ++ [⟨s.nextId, d, rt, v⟩], nextId := s.nextId + 1 }) }

/-! ## DNS service and the reconciliation queue (DnsWorker) -/

/-- `DnsUpdateRequest` from the DNS module's model. -/
structure DnsUpdateRequest where
  nodeId : Nat
  domain : String
  rtype : String
  value : String
deriving DecidableEq

/-- `DnsCheckRequest` from the DNS module's model (`expectedValue`
optional). -/
structure DnsCheckRequest where
  domain : String
  expectedValue : Option String
deriving DecidableEq

/-- The result shape of `checkDnsRecord`; `isMatch` carries the source's
`matches` field (`matches` is reserved in Lean). -/
structure DnsCheckResult where
  domain : String
  currentValue : Option String
  isMatch : Bool
deriving DecidableEq

/-- `checkDnsRecord(request)`: read the provider's A record, then
`matches = request.expectedValue ? currentValue === request.expectedValue :
true` (a missing — or empty, hence falsy — expected value yields true). -/
def checkDnsRecord {σ : Type} (B : CfBackend σ) (zoneCfg : Option String)
    (req : DnsCheckRequest) (s : σ) : DnsCheckResult × σ :=
  let r := CloudflareProvider.getRecord B zoneCfg req.domain "A" s
  let isMatch :=
    match req.expectedValue with
    | none => true
    | some e => if e = "" then true else r.1 == some e
  (⟨req.domain, r.1, isMatch⟩, r.2)

/-- The stored DNS record row fields the service touches. -/
structure DnsRecordRow where
  id : Nat
  nodeId : Nat
deriving DecidableEq

/-- The store operations `updateDnsRecord` performs, over store state `δ`;
each may throw (`Except.error`) while still advancing the store state. -/
structure DnsDbOps (δ : Type) where
  selectByNode : Nat → δ → Except Unit (List DnsRecordRow) × δ
  updateById : Nat → DnsUpdateRequest → Int → δ → Except Unit Unit × δ
  insertRow : DnsUpdateRequest → Int → δ → Except Unit Unit × δ

/-- The provider interface the service calls through (`DnsProvider`);
`none` models an uninitialized `defaultProvider`. -/
structure DnsProviderOps (σ : Type) where
  updateRecord : String → String → String → σ → Bool × σ

/-- The Cloudflare adapter packaged behind the provider interface. -/
def mkCloudflareProvider {σ : Type} (B : CfBackend σ) (zoneCfg : Option String) :
    DnsProviderOps σ :=
  ⟨fun d rt v s => CloudflareProvider.updateRecord B zoneCfg d rt v s⟩

/-- `updateDnsRecord(request)` (DNS service): throw when no provider is
initialized; select the node's stored record; call the provider; on success
upsert the store row; the service's catch logs and rethrows, so every
internal throw escapes to the task boundary as `Except.error`. -/
def updateDnsRecord {σ δ : Type} (prov : Option (DnsProviderOps σ))
    (ops : DnsDbOps δ) (req : DnsUpdateRequest) (now : Int) (s : σ) (d : δ) :
    Except Unit Bool × σ × δ :=
  match prov with
  | none => (Except.error (), s, d)
  | some P =>
    match ops.selectByNode req.nodeId d with
    | (Except.error _, d1) => (Except.error (), s, d1)
    | (Except.ok node, d1) =>
      let r := P.updateRecord req.domain req.rtype req.value s
      if r.1 then
        match node.head? with
        | some row =>
          match ops.updateById row.id req now d1 with
          | (Except.error _, d2) => (Except.error (), r.2, d2)
          | (Except.ok _, d2) => (Except.ok true, r.2, d2)
        | none =>
          match ops.insertRow req now d1 with
          | (Except.error _, d2) => (Except.error (), r.2, d2)
          | (Except.ok _, d2) => (Except.ok true, r.2, d2)
      else (Except.ok false, r.2, d1)

/-- `DnsWorker.addUpdateTask`'s boundary: the awaited task outcome is
converted to the caller's boolean — a rejection is caught (and logged) as
`false`, a fulfilled value `b` becomes `b || false = b`. -/
def addUpdateTask (outcome : Except Unit Bool) : Bool :=
  match outcome with
  | Except.error _ => false
  | Except.ok b => b

/-- The queue's task runner at `concurrency = 1`: admitted tasks execute
one after another in FIFO order, each through the `addUpdateTask` boundary,
threading the provider and store states. -/
def runQueueTasks {σ δ : Type} (prov : Option (DnsProviderOps σ))
    (ops : DnsDbOps δ) (now : Int) :
    List DnsUpdateRequest → σ → δ → List Bool × σ × δ
  | [], s, d => ([], s, d)
  | req :: rest, s, d =>
    let r := updateDnsRecord prov ops req now s d
    let q := runQueueTasks prov ops now rest r.2.1 r.2.2
    (addUpdateTask r.1 :: q.1, q.2)

/-! ### The queue's rate-limit options

The `DnsWorker` constructor builds `new PQueue({ concurrency, interval,
autoStart: true })`.  The scheduling semantics of the `p-queue` dependency:
`intervalCap` (maximum task starts per interval window) defaults to
Infinity, and the library ignores `interval` entirely whenever
`intervalCap` is Infinity or `interval` is 0 — only the pair enforces a
rate limit. -/

/-- The p-queue options relevant to task-start spacing; `intervalCap = none`
means the option was not supplied, so the library default (Infinity)
applies. -/
structure PQueueOptions where
  concurrency : Nat
  interval : Nat
  intervalCap : Option Nat
deriving DecidableEq

/-- p-queue's internal `isIntervalIgnored`: true when `intervalCap` is
Infinity (i.e. defaulted) or `interval` is 0. -/
def isIntervalIgnored (o : PQueueOptions) : Bool :=
  o.intervalCap.isNone || o.interval == 0

/-- The options the `DnsWorker` constructor passes with its defaults
`concurrency = 1, interval = 1000` — and no `intervalCap`. -/
def dnsWorkerQueueOptions : PQueueOptions :=
  { concurrency := 1, interval := 1000, intervalCap := none }

/-- Task start times under `concurrency = 1` for back-to-back enqueued
tasks of the given durations: when the interval is ignored, each task
starts as soon as the previous one ends; otherwise the start is also held
back to `interval` after the previous start. -/
def startTimesFrom (o : PQueueOptions) (t : Nat) : List Nat → List Nat
  | [] => []
  | dur :: rest =>
    t :: startTimesFrom o
      (if isIntervalIgnored o then t + dur else max (t + dur) (t + o.interval)) rest

/-- Start times of a burst beginning at time 0. -/
def startTimes (o : PQueueOptions) (durations : List Nat) : List Nat :=
  startTimesFrom o 0 durations

/-- A backend whose write endpoint answers with a well-formed vendor-API
error response (`success: false`) instead of throwing, while the record
lookup finds an existing record. -/
def c5Backend : CfBackend Unit :=
  { zonesQ := fun _ s => (Except.ok ⟨true, []⟩, s)
    recordsQ := fun _ _ _ s => (Except.ok ⟨true, [⟨7, "1.2.3.4"⟩]⟩, s)
    putQ := fun _ _ _ s => (Except.ok ⟨false, []⟩, s)
    postQ := fun _ _ _ _ s => (Except.ok ⟨false, []⟩, s) }

/-- A backend on which every call throws a transport error. -/
def cErrBackend : CfBackend Unit :=
  { zonesQ := fun _ s => (Except.error (), s)
    recordsQ := fun _ _ _ s => (Except.error (), s)
    putQ := fun _ _ _ s => (Except.error (), s)
    postQ := fun _ _ _ _ s => (Except.error (), s) }

/-- A backend that finds an existing record but throws on the PUT. -/
def cPutErrBackend : CfBackend Unit :=
  { zonesQ := fun _ s => (Except.ok ⟨true, ["z9"]⟩, s)
    recordsQ := fun _ _ _ s => (Except.ok ⟨true, [⟨7, "1.2.3.4"⟩]⟩, s)
    putQ := fun _ _ _ s => (Except.error (), s)
    postQ := fun _ _ _ _ s => (Except.error (), s) }

/-- A backend whose record lookup throws a transport error while the
create call succeeds. -/
def cFindErrBackend : CfBackend Unit :=
  { zonesQ := fun _ s => (Except.ok ⟨true, ["z9"]⟩, s)
    recordsQ := fun _ _ _ s => (Except.error (), s)
    putQ := fun _ _ _ s => (Except.error (), s)
    postQ := fun _ _ _ _ s => (Except.ok ⟨true, []⟩, s) }

/-- A store whose operations always succeed and carry no state. -/
def opsUnit : DnsDbOps Unit :=
  { selectByNode := fun _ s => (Except.ok [], s)
    updateById := fun _ _ _ s => (Except.ok (), s)
    insertRow := fun _ _ s => (Except.ok (), s) }

/-- A sample DNS update request. -/
def reqA : DnsUpdateRequest :=
  { nodeId := 1, domain := "a.example.com", rtype := "A", value := "1.2.3.4" }

/-- A second sample DNS update request. -/
def reqB : DnsUpdateRequest :=
  { nodeId := 2, domain := "b.example.com", rtype := "A", value := "5.6.7.8" }

/-! ## Template renderer (config service)

`replaceVariables` performs, for each entry of a fixed substitution map in
insertion order, `result = result.split(key).join(value)` — a sequential
global replacement.  It is embedded on `List Char` with a fuel-driven
scanner (the fuel is the string length, enough for every non-empty
pattern). -/

/-- The linked host's fields used by the renderer. -/
structure HostContext where
  ip : String
  ipv6 : Option String
  region : Option String
deriving DecidableEq

/-- `NodeConfigContext` as built by `getNodeContext`. -/
structure NodeConfigContext where
  id : Int
  name : String
  domain : String
  port : Int
  additionalPorts : List Int
  proxyType : String
  host : Option HostContext
deriving DecidableEq

/-- The JavaScript coercion `x || ''` on an optional string. -/
def jsOrEmpty : Option String → String
  | some s => s
  | none => ""

/-- The substitution map of `replaceVariables`, in object insertion order:
node variables, host variables (empty when there is no linked host), then
the comma-joined additional ports. -/
def replacements (ctx : NodeConfigContext) : List (String × String) :=
  [("{{NODE_ID}}", toString ctx.id),
   ("{{NODE_NAME}}", ctx.name),
   ("{{DOMAIN}}", ctx.domain),
   ("{{PORT}}", toString ctx.port),
   ("{{PROXY_TYPE}}", ctx.proxyType),
   ("{{HOST_IP}}", jsOrEmpty (ctx.host.map HostContext.ip)),
   ("{{HOST_IPV6}}", jsOrEmpty (ctx.host.bind HostContext.ipv6)),
   ("{{HOST_REGION}}", jsOrEmpty (ctx.host.bind HostContext.region)),
   ("{{ADDITIONAL_PORTS}}", String.intercalate "," (ctx.additionalPorts.map toString))]

/-- The known placeholder keys, in processing order. -/
def knownKeys : List String :=
  ["{{NODE_ID}}", "{{NODE_NAME}}", "{{DOMAIN}}", "{{PORT}}", "{{PROXY_TYPE}}",
   "{{HOST_IP}}", "{{HOST_IPV6}}", "{{HOST_REGION}}", "{{ADDITIONAL_PORTS}}"]

/-- Fuel-driven scanner for `s.split(p).join(v)`: leftmost non-overlapping
occurrences of `p` are replaced by `v`, and an inserted `v` is not
re-scanned within the same pass. -/
def splitJoinFuel (p v : List Char) : Nat → List Char → List Char
  | _, [] => []
  | 0, s => s
  | fuel + 1, c :: rest =>
    if p.isPrefixOf (c :: rest) then
      v ++ splitJoinFuel p v fuel ((c :: rest).drop p.length)
    else c :: splitJoinFuel p v fuel rest

/-- `s.split(p).join(v)` on character lists (for non-empty `p`). -/
def splitJoin (p v s : List Char) : List Char := splitJoinFuel p v s.length s

/-- Fold the per-key passes over a substitution list, in list order. -/
def applySubsts (subs : List (String × String)) (s : String) : String :=
  String.mk (subs.foldl (fun acc kv => splitJoin kv.1.data kv.2.data acc) s.data)

/-- `replaceVariables(template, context)`: sequential global replacement of
each placeholder of the map, in insertion order. -/
def replaceVariables (template : String) (ctx : NodeConfigContext) : String :=
  applySubsts (replacements ctx) template

/-- Character lists without any `{` or `}`. -/
def braceFree (s : List Char) : Bool := s.all (fun c => !(c == '{' || c == '}'))

/-- Character lists without any `{` (a placeholder cannot start inside). -/
def noOpenBrace (s : List Char) : Bool := s.all (fun c => !(c == '{'))

/-- A well-formed placeholder key: literally `{{NAME}}` with a brace-free
name. -/
def wfKey (k : String) : Prop :=
  ∃ n : List Char, k.data = '{' :: '{' :: (n ++ ['}', '}']) ∧ braceFree n = true

/-- A template segment: a literal chunk or a placeholder occurrence. -/
inductive TplSeg where
  | lit : List Char → TplSeg
  | var : String → TplSeg
deriving DecidableEq

/-- Concatenate segments back into the template text. -/
def TplSeg.flat : List TplSeg → List Char
  | [] => []
  | TplSeg.lit a :: rest => a ++ TplSeg.flat rest
  | TplSeg.var k :: rest => k.data ++ TplSeg.flat rest

/-- A structurally fine segment: a brace-free literal chunk, or a
placeholder with a well-formed key. -/
def SegOk : TplSeg → Prop
  | TplSeg.lit a => braceFree a = true
  | TplSeg.var k => wfKey k

/-- Effect of one key's pass on a segment: its own placeholder becomes the
inserted (literal) value. -/
def substOne (p : String) (v : List Char) : TplSeg → TplSeg
  | TplSeg.var k => if k = p then TplSeg.lit v else TplSeg.var k
  | TplSeg.lit a => TplSeg.lit a

/-- Effect of all passes, in list order, on a segment. -/
def substAll (subs : List (String × String)) (seg : TplSeg) : TplSeg :=
  subs.foldl (fun sg kv => substOne kv.1 kv.2.data sg) seg

/-- First value bound to a key in the substitution list. -/
def lookupValue (subs : List (String × String)) (k : String) : Option String :=
  (subs.find? (fun kv => kv.1 == k)).map Prod.snd

/-- The render context of the C7 counterexample: an empty domain (the
`getNodeContext` default for a node without one) and no linked host. -/
def c7Ctx : NodeConfigContext :=
  { id := 1, name := "node-1", domain := "", port := 443, additionalPorts := []
    proxyType := "vless", host := none }

/-- The substitution map of `c7Ctx` with the `{{DOMAIN}}` entry processed
first — a permutation of the map's insertion order. -/
def c7Perm : List (String × String) :=
  [("{{DOMAIN}}", ""),
   ("{{NODE_ID}}", "1"),
   ("{{NODE_NAME}}", "node-1"),
   ("{{PORT}}", "443"),
   ("{{PROXY_TYPE}}", "vless"),
   ("{{HOST_IP}}", ""),
   ("{{HOST_IPV6}}", ""),
   ("{{HOST_REGION}}", ""),
   ("{{ADDITIONAL_PORTS}}", "")]

/-- The render context of the spec's missing-host scenario. -/
def c8Ctx : NodeConfigContext :=
  { id := 1, name := "node-1", domain := "a.example.com", port := 443
    additionalPorts := [8443], proxyType := "vless", host := none }

/-- A well-formed segment template: brace-free literal chunks interleaved
with known placeholders. -/
def c7wSegs : List TplSeg :=
  [TplSeg.lit "server=".data, TplSeg.var "{{DOMAIN}}",
   TplSeg.lit ":".data, TplSeg.var "{{PORT}}"]

/-! ## Monitor theorems -/

theorem notifyHostOffline_ok {n : String} {lh : Int} {m : String}
    (h : notifyHostOffline n lh = Except.ok m) : m = n := by
  unfold notifyHostOffline at h
  split at h
  · exact absurd h (by simp)
  · exact (Except.ok.injEq _ _ ▸ h).symm

theorem hostHeartbeatStep_ok (cfg : MonitorConfig) (tg : Bool) (now : Int)
    (x : HostRow) (notified : Option String)
    (hstep : hostHeartbeatStep cfg tg now x = Except.ok notified) :
    notified = if notifyCond cfg tg now x then some x.name else none := by
  unfold hostHeartbeatStep at hstep
  unfold notifyCond
  by_cases hoff : x.status == "offline"
  · simp [hoff] at hstep ⊢
    exact hstep.symm
  · by_cases hstale : now - x.lastHeartbeat.orZero > cfg.hostHeartbeatTimeout
    · by_cases hflag : cfg.notifyOnHostOffline && tg
      · simp [hoff, hstale, hflag] at hstep ⊢
        cases hnot : notifyHostOffline x.name x.lastHeartbeat.orZero with
        | error e => rw [hnot] at hstep; exact absurd hstep (by simp [Except.map])
        | ok m =>
          rw [hnot] at hstep
          simp [Except.map] at hstep
          rw [← hstep, notifyHostOffline_ok hnot]
      · simp [hoff, hstale, hflag] at hstep ⊢
        exact hstep.symm
    · simp [hoff, hstale] at hstep ⊢
      exact hstep.symm

theorem heartbeatLoop_notifications (cfg : MonitorConfig) (tg : Bool) (now : Int)
    (hosts : List HostRow) (h : (heartbeatLoop cfg tg now hosts).2.2 = false) :
    (heartbeatLoop cfg tg now hosts).2.1
      = (hosts.filter (notifyCond cfg tg now)).map HostRow.name := by
  induction hosts with
  | nil => rfl
  | cons x rest ih =>
    cases hstep : hostHeartbeatStep cfg tg now x with
    | error e => simp [heartbeatLoop, hstep] at h
    | ok notified =>
      have hrest : (heartbeatLoop cfg tg now rest).2.2 = false := by
        simpa [heartbeatLoop, hstep] using h
      have hchar := hostHeartbeatStep_ok cfg tg now x notified hstep
      by_cases hcond : notifyCond cfg tg now x
      · simp [heartbeatLoop, hstep, hchar, hcond, ih hrest]
      · simp [heartbeatLoop, hstep, hchar, hcond, ih hrest]

theorem heartbeatLoop_processed_complete (cfg : MonitorConfig) (tg : Bool) (now : Int)
    (hosts : List HostRow) (h : (heartbeatLoop cfg tg now hosts).2.2 = false) :
    (heartbeatLoop cfg tg now hosts).1 = hosts.map HostRow.name := by
  induction hosts with
  | nil => rfl
  | cons x rest ih =>
    cases hstep : hostHeartbeatStep cfg tg now x with
    | error e => simp [heartbeatLoop, hstep] at h
    | ok notified =>
      have hrest : (heartbeatLoop cfg tg now rest).2.2 = false := by
        simpa [heartbeatLoop, hstep] using h
      simp [heartbeatLoop, hstep, ih hrest]

theorem heartbeatLoop_processed_take (cfg : MonitorConfig) (tg : Bool) (now : Int)
    (hosts : List HostRow) :
    ∃ k, (heartbeatLoop cfg tg now hosts).1 = (hosts.map HostRow.name).take k := by
  induction hosts with
  | nil => exact ⟨0, rfl⟩
  | cons x rest ih =>
    cases hstep : hostHeartbeatStep cfg tg now x with
    | error e => exact ⟨1, by simp [heartbeatLoop, hstep]⟩
    | ok notified =>
      obtain ⟨k, hk⟩ := ih
      exact ⟨k + 1, by simp [heartbeatLoop, hstep, hk]⟩

/-- C1 counterexample: a sweep at time 400 over a single host whose stored
status is `'unknown'` (not `'offline'`) and whose last heartbeat (0) is 400
seconds old — beyond the default 300-second timeout — does not persist
`status = 'offline'` for it: `markOfflineHosts` only updates rows whose
status is exactly `'online'`. -/
theorem monitor_unknown_host_never_marked :
    c1Host.status ≠ "offline" ∧
    400 - c1Host.lastHeartbeat.orZero > monitorDefaultConfig.hostHeartbeatTimeout ∧
    (runCheck monitorDefaultConfig true 400 [c1Host]).hbAborted = false ∧
    (runCheck monitorDefaultConfig true 400 [c1Host]).hostsAfter = [c1Host] ∧
    c1Host.status = "unknown" := by decide

/-- C1 (amended): for every host whose stored status is exactly `'online'`
and whose (non-null) last heartbeat is more than `heartbeatTimeout` seconds
before the sweep time, a single monitor sweep whose heartbeat phase runs to
completion persists that host's status as `'offline'`, and, when the
offline-notification flag and the notifier are enabled, attempts exactly one
offline notification for it. -/
theorem monitor_marks_stale_online_host_offline
    (cfg : MonitorConfig) (now : Int) (hosts : List HostRow) (h : HostRow) (t : Int)
    (hmem : h ∈ hosts)
    (hstatus : h.status = "online")
    (hlast : h.lastHeartbeat = JsVal.num t)
    (hstale : now - t > cfg.hostHeartbeatTimeout)
    (hflag : cfg.notifyOnHostOffline = true)
    (hnodup : (hosts.map HostRow.name).Nodup)
    (habort : (runCheck cfg true now hosts).hbAborted = false) :
    { h with status := "offline" } ∈ (runCheck cfg true now hosts).hostsAfter ∧
    (runCheck cfg true now hosts).hbNotifications.count h.name = 1 := by
  have hloopf : (heartbeatLoop cfg true now hosts).2.2 = false := habort
  have hcond : notifyCond cfg true now h = true := by
    simp [notifyCond, hstatus, hlast, JsVal.orZero, hflag]
    omega
  constructor
  · show _ ∈ (checkHostHeartbeats cfg true now hosts).hostsAfter
    have : (checkHostHeartbeats cfg true now hosts).hostsAfter
        = markOfflineHosts cfg.hostHeartbeatTimeout now hosts := by
      simp [checkHostHeartbeats, hloopf]
    rw [this]
    have hmark : hostMarkOffline cfg.hostHeartbeatTimeout now h
        = { h with status := "offline" } := by
      simp [hostMarkOffline, hlast, hstatus]
      omega
    exact hmark ▸ List.mem_map_of_mem _ hmem
  · show (heartbeatLoop cfg true now hosts).2.1.count h.name = 1
    rw [heartbeatLoop_notifications cfg true now hosts hloopf]
    have hsub : ((hosts.filter (notifyCond cfg true now)).map HostRow.name).Sublist
        (hosts.map HostRow.name) := (List.filter_sublist hosts).map _
    have hnd := hnodup.sublist hsub
    have hmemf : h ∈ hosts.filter (notifyCond cfg true now) :=
      List.mem_filter.mpr ⟨hmem, hcond⟩
    exact List.count_eq_one_of_mem hnd (List.mem_map_of_mem _ hmemf)

/-- Witness for the amended C1 theorem at a concrete input: one online host
whose heartbeat is 400 seconds old under the default 300-second timeout. -/
theorem monitor_marks_stale_online_host_offline_witness :
    { ({ name := "h1", status := "online", lastHeartbeat := JsVal.num 0
         diskTotal := JsVal.num 100, diskUsed := JsVal.num 10 } : HostRow)
        with status := "offline" }
      ∈ (runCheck monitorDefaultConfig true 400
          [{ name := "h1", status := "online", lastHeartbeat := JsVal.num 0
             diskTotal := JsVal.num 100, diskUsed := JsVal.num 10 }]).hostsAfter ∧
    (runCheck monitorDefaultConfig true 400
      [{ name := "h1", status := "online", lastHeartbeat := JsVal.num 0
         diskTotal := JsVal.num 100, diskUsed := JsVal.num 10 }]).hbNotifications.count "h1"
      = 1 :=
  monitor_marks_stale_online_host_offline monitorDefaultConfig 400 _ _ 0
    (by decide) (by decide) (by decide) (by decide) (by decide) (by decide) (by decide)

/-- C6 counterexample: with two online stale hosts, where evaluating the
first one throws (its `lastHeartbeat` of `-10^16` makes the notification's
date conversion raise a RangeError), the heartbeat phase's single try/catch
aborts the whole phase: the second host is never evaluated there, and
`markOfflineHosts` never runs in that sweep, so the second host also stays
`'online'`. -/
theorem sweep_per_host_failure_aborts_phase :
    (runCheck monitorDefaultConfig true 400 [c6HostBad, c6HostStale]).hbAborted = true ∧
    (runCheck monitorDefaultConfig true 400 [c6HostBad, c6HostStale]).hbProcessed = ["h1"] ∧
    "h2" ∉ (runCheck monitorDefaultConfig true 400 [c6HostBad, c6HostStale]).hbProcessed ∧
    (runCheck monitorDefaultConfig true 400 [c6HostBad, c6HostStale]).hostsAfter
      = [c6HostBad, c6HostStale] ∧
    c6HostStale.status = "online" := by decide

/-- C6 (amended): a failure evaluating one host is caught per sweep phase,
not per host: it aborts the remaining heartbeat evaluations and the offline
persistence of that sweep (the heartbeat-processed list is a prefix of the
host list), while the disk phase still evaluates every host and the sweep as
a whole completes; when no evaluation fails, the heartbeat phase evaluates
every host. -/
theorem sweep_failure_isolated_per_phase (cfg : MonitorConfig) (tg : Bool)
    (now : Int) (hosts : List HostRow) :
    (runCheck cfg tg now hosts).diskProcessed = hosts.map HostRow.name ∧
    ((runCheck cfg tg now hosts).hbAborted = false →
      (runCheck cfg tg now hosts).hbProcessed = hosts.map HostRow.name) ∧
    ((runCheck cfg tg now hosts).hbAborted = true →
      (runCheck cfg tg now hosts).hostsAfter = hosts ∧
      ∃ k, (runCheck cfg tg now hosts).hbProcessed = (hosts.map HostRow.name).take k) := by
  refine ⟨?_, ?_, ?_⟩
  · show (checkHostHeartbeats cfg tg now hosts).hostsAfter.map HostRow.name = _
    unfold checkHostHeartbeats
    by_cases hab : (heartbeatLoop cfg tg now hosts).2.2
    · simp [hab]
    · simp [hab, markOfflineHosts]
      intro x hx
      unfold hostMarkOffline
      split
      · split
        · rfl
        · rfl
      · rfl
  · intro hab
    exact heartbeatLoop_processed_complete cfg tg now hosts hab
  · intro hab
    refine ⟨?_, heartbeatLoop_processed_take cfg tg now hosts⟩
    have hab2 : (heartbeatLoop cfg tg now hosts).2.2 = true := hab
    show (checkHostHeartbeats cfg tg now hosts).hostsAfter = hosts
    simp [checkHostHeartbeats, hab2]

/-- Witness for the amended C6 theorem at the concrete aborting input. -/
theorem sweep_failure_isolated_per_phase_witness :
    (runCheck monitorDefaultConfig true 400 [c6HostBad, c6HostStale]).diskProcessed
      = ["h1", "h2"] ∧
    (runCheck monitorDefaultConfig true 400 [c6HostBad, c6HostStale]).hostsAfter
      = [c6HostBad, c6HostStale] := by
  have h := sweep_failure_isolated_per_phase monitorDefaultConfig true 400
    [c6HostBad, c6HostStale]
  exact ⟨h.1, (h.2.2 (by decide)).1⟩

/-- C9: the disk-space check's guard skips every host whose `diskTotal` is
falsy (zero, null or undefined) or whose `diskUsed` is the JS value
`undefined`: for such a host the usage-percentage division is never
evaluated and no low-disk notification is attempted; and whenever the
division is evaluated its divisor is non-zero. -/
theorem disk_check_guard_safe :
    (∀ h : HostRow, (h.diskTotal.falsy = true ∨ h.diskUsed = JsVal.undef) →
      diskDivision h = none ∧ diskUsagePercent h = none ∧
      ∀ (cfg : MonitorConfig) (tg : Bool), checkDiskStep cfg tg h = none) ∧
    (∀ (h : HostRow) (u t : Rat), diskDivision h = some (u, t) → t ≠ 0) := by
  constructor
  · intro h hguard
    have hskip : diskSkip h = true := by
      unfold diskSkip
      rcases hguard with hg | hg
      · simp [hg]
      · simp [hg]
    have hdiv : diskDivision h = none := by simp [diskDivision, hskip]
    refine ⟨hdiv, ?_, ?_⟩
    · simp [diskUsagePercent, hdiv]
    · intro cfg tg
      simp [checkDiskStep, diskUsagePercent, hdiv]
  · intro h u t hdiv
    unfold diskDivision at hdiv
    by_cases hskip : diskSkip h
    · simp [hskip] at hdiv
    · simp [hskip] at hdiv
      have htot : h.diskTotal.falsy = false := by
        unfold diskSkip at hskip
        simp at hskip
        exact hskip.1
      cases htt : h.diskTotal with
      | undef => rw [htt] at htot; simp [JsVal.falsy] at htot
      | null => rw [htt] at htot; simp [JsVal.falsy] at htot
      | num n =>
        rw [htt] at htot hdiv
        simp [JsVal.falsy] at htot
        cases hdu : jsToNum h.diskUsed with
        | none => rw [hdu] at hdiv; simp [jsToNum] at hdiv
        | some u0 =>
          rw [hdu] at hdiv
          simp [jsToNum] at hdiv
          rw [← hdiv.2]
          exact_mod_cast htot

/-- Witness for the C9 theorem: the guard skips a zero-`diskTotal` host, and
the division evaluated for a 95/100 host has a non-zero divisor. -/
theorem disk_check_guard_safe_witness :
    (diskDivision c9HostZero = none ∧
      checkDiskStep monitorDefaultConfig true c9HostZero = none) ∧
    ((100 : Rat) ≠ 0) := by
  have h1 := disk_check_guard_safe.1 c9HostZero (Or.inl (by decide))
  have h2 := disk_check_guard_safe.2 c9HostFull 95 100 (by decide)
  exact ⟨⟨h1.1, h1.2.2 monitorDefaultConfig true⟩, h2⟩

/-! ## Provider, service and queue theorems -/

/-- C10: for every `checkDnsRecord` request without an `expectedValue`, the
returned result has `matches = true`, whatever the provider's current record
value is — including when the record is absent. -/
theorem checkDnsRecord_no_expected_always_matches (σ : Type) (B : CfBackend σ)
    (zoneCfg : Option String) (domain : String) (s : σ) :
    ((checkDnsRecord B zoneCfg ⟨domain, none⟩ s).1).isMatch = true := rfl

/-- C5 counterexample: when the PUT whose body carries the new value comes
back as a well-formed vendor-API error (`success: false`), `updateRecord`
still returns true, because the adapter never inspects the write's response
body — the claim that every vendor-API error is reported as failure is
false. -/
theorem updateRecord_ignores_vendor_api_error :
    (c5Backend.putQ "z1" 7 "5.6.7.8" ()).1 = Except.ok ⟨false, []⟩ ∧
    CloudflareProvider.updateRecord c5Backend (some "z1") "a.example.com" "A" "5.6.7.8" ()
      = (true, ()) := ⟨rfl, rfl⟩

/-- C5 (amended): a transport error (a rejected fetch, `Except.error`) on
the write call (PUT to a found record, or POST create) makes `updateRecord`
report false, as does an undeterminable zone id; `getRecord` reports null
when the zone cannot be determined or when its record query throws; neither
operation raises past its caller (both are total functions here).  Two
error cases are not reported, however: a transport error on
`updateRecord`'s record lookup is swallowed — `findRecord` catches it and
reports absent, the adapter proceeds to create, and `updateRecord` returns
true when the POST succeeds (last conjunct) — and a vendor-API error
response on the write itself is never inspected (see the counterexample). -/
theorem provider_transport_errors_reported :
    (∀ (σ : Type) (B : CfBackend σ) (zoneCfg : Option String)
       (d rt v : String) (s : σ) (zid : String) (s1 : σ) (rec : CfRec) (s2 : σ),
      CloudflareProvider.effectiveZoneId B zoneCfg d s = (some zid, s1) →
      CloudflareProvider.findRecord B zid d rt s1 = (some rec, s2) →
      (B.putQ zid rec.id v s2).1 = Except.error () →
      (CloudflareProvider.updateRecord B zoneCfg d rt v s).1 = false) ∧
    (∀ (σ : Type) (B : CfBackend σ) (zoneCfg : Option String)
       (d rt v : String) (s : σ) (zid : String) (s1 s2 : σ),
      CloudflareProvider.effectiveZoneId B zoneCfg d s = (some zid, s1) →
      CloudflareProvider.findRecord B zid d rt s1 = (none, s2) →
      (B.postQ zid d rt v s2).1 = Except.error () →
      (CloudflareProvider.updateRecord B zoneCfg d rt v s).1 = false) ∧
    (∀ (σ : Type) (B : CfBackend σ) (zoneCfg : Option String)
       (d rt v : String) (s : σ) (s1 : σ),
      CloudflareProvider.effectiveZoneId B zoneCfg d s = (none, s1) →
      (CloudflareProvider.updateRecord B zoneCfg d rt v s).1 = false ∧
      (CloudflareProvider.getRecord B zoneCfg d rt s).1 = none) ∧
    (∀ (σ : Type) (B : CfBackend σ) (zoneCfg : Option String)
       (d rt : String) (s : σ) (zid : String) (s1 : σ),
      CloudflareProvider.effectiveZoneId B zoneCfg d s = (some zid, s1) →
      (B.recordsQ zid d rt s1).1 = Except.error () →
      (CloudflareProvider.getRecord B zoneCfg d rt s).1 = none) ∧
    (∀ (σ : Type) (B : CfBackend σ) (zoneCfg : Option String)
       (d rt v : String) (s : σ) (zid : String) (s1 s2 : σ) (resp : ApiResp Unit),
      CloudflareProvider.effectiveZoneId B zoneCfg d s = (some zid, s1) →
      B.recordsQ zid d rt s1 = (Except.error (), s2) →
      (B.postQ zid d rt v s2).1 = Except.ok resp →
      (CloudflareProvider.updateRecord B zoneCfg d rt v s).1 = true) := by
  refine ⟨?_, ?_, ?_, ?_, ?_⟩
  · intro σ B zoneCfg d rt v s zid s1 rec s2 hz hf hput
    rcases hq : B.putQ zid rec.id v s2 with ⟨e, s3⟩
    rw [hq] at hput
    simp at hput
    subst hput
    simp [CloudflareProvider.updateRecord, hz, hf, hq]
  · intro σ B zoneCfg d rt v s zid s1 s2 hz hf hpost
    rcases hq : B.postQ zid d rt v s2 with ⟨e, s3⟩
    rw [hq] at hpost
    simp at hpost
    subst hpost
    simp [CloudflareProvider.updateRecord, hz, hf, hq]
  · intro σ B zoneCfg d rt v s s1 hz
    constructor
    · simp [CloudflareProvider.updateRecord, hz]
    · simp [CloudflareProvider.getRecord, hz]
  · intro σ B zoneCfg d rt s zid s1 hz hrec
    rcases hq : B.recordsQ zid d rt s1 with ⟨e, s2⟩
    rw [hq] at hrec
    simp at hrec
    subst hrec
    have hf : CloudflareProvider.findRecord B zid d rt s1 = (none, s2) := by
      simp [CloudflareProvider.findRecord, hq]
    simp [CloudflareProvider.getRecord, hz, hf]
  · intro σ B zoneCfg d rt v s zid s1 s2 resp hz hrec hpost
    have hf : CloudflareProvider.findRecord B zid d rt s1 = (none, s2) := by
      simp [CloudflareProvider.findRecord, hrec]
    rcases hq : B.postQ zid d rt v s2 with ⟨e, s3⟩
    rw [hq] at hpost
    simp at hpost
    subst hpost
    simp [CloudflareProvider.updateRecord, hz, hf, hq]

/-- Witness for the amended C5 theorem: a throwing PUT yields false, a
backend whose every call throws yields false/null through the
undeterminable-zone path, and a throwing record lookup with a succeeding
create is swallowed and yields true. -/
theorem provider_transport_errors_reported_witness :
    (CloudflareProvider.updateRecord cPutErrBackend (some "z1") "a.example.com" "A" "9.9.9.9" ()).1
      = false ∧
    (CloudflareProvider.updateRecord cErrBackend none "a.example.com" "A" "9.9.9.9" ()).1
      = false ∧
    (CloudflareProvider.getRecord cErrBackend none "a.example.com" "A" ()).1 = none ∧
    (CloudflareProvider.updateRecord cFindErrBackend (some "z1") "a.example.com" "A" "9.9.9.9" ()).1
      = true := by
  refine ⟨?_, ?_, ?_, ?_⟩
  · exact provider_transport_errors_reported.1 Unit cPutErrBackend (some "z1")
      "a.example.com" "A" "9.9.9.9" () "z1" () ⟨7, "1.2.3.4"⟩ () rfl rfl rfl
  · exact (provider_transport_errors_reported.2.2.1 Unit cErrBackend none
      "a.example.com" "A" "9.9.9.9" () () rfl).1
  · exact (provider_transport_errors_reported.2.2.1 Unit cErrBackend none
      "a.example.com" "A" "9.9.9.9" () () rfl).2
  · exact provider_transport_errors_reported.2.2.2.2 Unit cFindErrBackend (some "z1")
      "a.example.com" "A" "9.9.9.9" () "z1" () () ⟨true, []⟩ rfl rfl rfl

/-- C4: starting from a vendor state with no record for `(domain, type)`
(and well-formed fresh ids), two serialized `updateRecord` calls succeed,
the first issuing the only create and the second an update addressed to the
created record's id, leaving exactly one record for `(domain, type)` whose
value is the latest one. -/
theorem updateRecord_twice_single_record
    (s : CfServer) (d rt v1 v2 : String) (b1 b2 : Bool) (s1 s2 : CfServer)
    (hid : ∀ r ∈ s.records, r.id < s.nextId)
    (hnone : s.records.filter (srvMatches d rt) = [])
    (h1 : CloudflareProvider.updateRecord serverBackend (some "zone1") d rt v1 s = (b1, s1))
    (h2 : CloudflareProvider.updateRecord serverBackend (some "zone1") d rt v2 s1 = (b2, s2)) :
    b1 = true ∧ b2 = true ∧
    s2.records.filter (srvMatches d rt) = [⟨s.nextId, d, rt, v2⟩] ∧
    s2.nextId = s.nextId + 1 := by
  have hz : ∀ t : CfServer,
      CloudflareProvider.effectiveZoneId serverBackend (some "zone1") d t
        = (some "zone1", t) := by
    intro t
    simp [CloudflareProvider.effectiveZoneId]
  have hf1 : CloudflareProvider.findRecord serverBackend "zone1" d rt s = (none, s) := by
    simp only [CloudflareProvider.findRecord, serverBackend]
    rw [hnone]
    simp
  have hmself : srvMatches d rt (⟨s.nextId, d, rt, v1⟩ : SrvRec) = true := by
    simp [srvMatches]
  have hu1 : CloudflareProvider.updateRecord serverBackend (some "zone1") d rt v1 s
      = (true, { records := s.records ++ [⟨s.nextId, d, rt, v1⟩], nextId := s.nextId + 1 }) := by
    simp only [CloudflareProvider.updateRecord, hz, hf1]
    simp [serverBackend]
  rw [hu1] at h1
  have hb1 : b1 = true := (Prod.ext_iff.mp h1.symm).1
  have hs1 : s1 = { records := s.records ++ [⟨s.nextId, d, rt, v1⟩], nextId := s.nextId + 1 } :=
    (Prod.ext_iff.mp h1.symm).2
  subst hs1
  have hfilter1 : List.filter (srvMatches d rt)
        (s.records ++ [(⟨s.nextId, d, rt, v1⟩ : SrvRec)])
      = [(⟨s.nextId, d, rt, v1⟩ : SrvRec)] := by
    rw [List.filter_append, hnone, List.nil_append]
    simp [hmself]
  have hf2 : CloudflareProvider.findRecord serverBackend "zone1" d rt
      { records := s.records ++ [⟨s.nextId, d, rt, v1⟩], nextId := s.nextId + 1 }
      = (some (⟨s.nextId, v1⟩ : CfRec),
         { records := s.records ++ [⟨s.nextId, d, rt, v1⟩], nextId := s.nextId + 1 }) := by
    simp only [CloudflareProvider.findRecord, serverBackend]
    rw [hfilter1]
    simp
  have hmap : List.map (srvPut s.nextId v2)
        (s.records ++ [(⟨s.nextId, d, rt, v1⟩ : SrvRec)])
      = s.records ++ [(⟨s.nextId, d, rt, v2⟩ : SrvRec)] := by
    rw [List.map_append]
    congr 1
    · have hfix : ∀ r ∈ s.records, srvPut s.nextId v2 r = id r := by
        intro r hr
        simp [srvPut, Nat.ne_of_lt (hid r hr)]
      rw [List.map_congr_left hfix, List.map_id]
    · simp [srvPut]
  have hu2 : CloudflareProvider.updateRecord serverBackend (some "zone1") d rt v2
      { records := s.records ++ [⟨s.nextId, d, rt, v1⟩], nextId := s.nextId + 1 }
      = (true, { records := s.records ++ [⟨s.nextId, d, rt, v2⟩], nextId := s.nextId + 1 }) := by
    simp only [CloudflareProvider.updateRecord, hz, hf2]
    simp only [serverBackend]
    rw [hmap]
  rw [hu2] at h2
  have hb2 : b2 = true := (Prod.ext_iff.mp h2.symm).1
  have hs2 : s2 = { records := s.records ++ [⟨s.nextId, d, rt, v2⟩], nextId := s.nextId + 1 } :=
    (Prod.ext_iff.mp h2.symm).2
  subst hs2
  refine ⟨hb1, hb2, ?_, rfl⟩
  show List.filter (srvMatches d rt) (s.records ++ [(⟨s.nextId, d, rt, v2⟩ : SrvRec)]) = _
  rw [List.filter_append, hnone, List.nil_append]
  simp [srvMatches]

/-- Witness for the C4 theorem on the empty vendor state. -/
theorem updateRecord_twice_single_record_witness :
    ((⟨[⟨0, "a.example.com", "A", "2.2.2.2"⟩], 1⟩ : CfServer).records.filter
        (srvMatches "a.example.com" "A") = [⟨0, "a.example.com", "A", "2.2.2.2"⟩]) ∧
    (⟨[⟨0, "a.example.com", "A", "2.2.2.2"⟩], 1⟩ : CfServer).nextId = 0 + 1 := by
  have h := updateRecord_twice_single_record ⟨[], 0⟩ "a.example.com" "A"
    "1.1.1.1" "2.2.2.2" true true
    ⟨[⟨0, "a.example.com", "A", "1.1.1.1"⟩], 1⟩
    ⟨[⟨0, "a.example.com", "A", "2.2.2.2"⟩], 1⟩
    (by intro r hr; simp at hr) (by decide) (by decide) (by decide)
  exact ⟨h.2.2.1, h.2.2.2⟩

/-- C3: an exception thrown by a task body is confined to that task: its
caller's awaited result is false, and the queue goes on to execute every
remaining admitted task, each settling with its own result (as many results
as admitted tasks). -/
theorem queue_task_failure_isolated (σ δ : Type) (prov : Option (DnsProviderOps σ))
    (ops : DnsDbOps δ) (now : Int) :
    (∀ (req : DnsUpdateRequest) (reqs : List DnsUpdateRequest)
       (s : σ) (d : δ) (s1 : σ) (d1 : δ),
      updateDnsRecord prov ops req now s d = (Except.error (), s1, d1) →
      (runQueueTasks prov ops now (req :: reqs) s d).1
        = false :: (runQueueTasks prov ops now reqs s1 d1).1) ∧
    (∀ (reqs : List DnsUpdateRequest) (s : σ) (d : δ),
      ((runQueueTasks prov ops now reqs s d).1).length = reqs.length) := by
  constructor
  · intro req reqs s d s1 d1 h
    simp [runQueueTasks, h, addUpdateTask]
  · intro reqs
    induction reqs with
    | nil => intro s d; rfl
    | cons req rest ih =>
      intro s d
      simp [runQueueTasks, ih]

/-- Witness for the C3 theorem: with an uninitialized provider every task
body throws; the first caller gets false and the second task still runs and
settles. -/
theorem queue_task_failure_isolated_witness :
    (runQueueTasks (σ := Unit) (δ := Unit) none opsUnit 0 [reqA, reqB] () ()).1
      = false :: (runQueueTasks (σ := Unit) (δ := Unit) none opsUnit 0 [reqB] () ()).1 ∧
    ((runQueueTasks (σ := Unit) (δ := Unit) none opsUnit 0 [reqA, reqB] () ()).1).length = 2 := by
  have h := queue_task_failure_isolated Unit Unit none opsUnit 0
  exact ⟨h.1 reqA [reqB] () () () () rfl, h.2 [reqA, reqB] () ()⟩

/-- C2 (code bug): the `DnsWorker` constructor passes
`{ concurrency: 1, interval: 1000 }` with no `intervalCap`, so p-queue's
`isIntervalIgnored` is true and the configured interval enforces no spacing
at all: two back-to-back tasks of durations 200 and 300 start at 0 and 200,
only 200 < 1000 apart.  Supplying `intervalCap: 1` would have produced the
claimed ≥ 1000 spacing. -/
theorem dns_queue_interval_ignored_without_cap :
    isIntervalIgnored dnsWorkerQueueOptions = true ∧
    startTimes dnsWorkerQueueOptions [200, 300] = [0, 200] ∧
    200 - 0 < 1000 ∧
    startTimes { concurrency := 1, interval := 1000, intervalCap := some 1 } [200, 300]
      = [0, 1000] := by decide

/-! ## Renderer lemmas -/

theorem splitJoinFuel_nil (p v : List Char) (f : Nat) : splitJoinFuel p v f [] = [] := by
  cases f <;> rfl

theorem splitJoin_nil (p v : List Char) : splitJoin p v [] = [] := rfl

theorem splitJoinFuel_fuel_eq (p : List Char) (hp : p ≠ []) (v : List Char) :
    ∀ (f : Nat) (s : List Char), s.length ≤ f →
      splitJoinFuel p v f s = splitJoinFuel p v s.length s := by
  intro f
  induction f using Nat.strong_induction_on with
  | _ f ih =>
    intro s hs
    cases s with
    | nil => simp [splitJoinFuel_nil]
    | cons c rest =>
      cases f with
      | zero => simp at hs
      | succ f =>
        have hs2 : rest.length ≤ f := Nat.le_of_succ_le_succ hs
        show splitJoinFuel p v (f + 1) (c :: rest)
          = splitJoinFuel p v (rest.length + 1) (c :: rest)
        by_cases hpre : p.isPrefixOf (c :: rest) = true
        · have hlen : ((c :: rest).drop p.length).length ≤ rest.length := by
            cases p with
            | nil => exact absurd rfl hp
            | cons a b => simp only [List.length_drop, List.length_cons]; omega
          have e1 := ih f (Nat.lt_succ_self f) ((c :: rest).drop p.length)
            (le_trans hlen hs2)
          have e2 := ih rest.length (Nat.lt_succ_of_le hs2) ((c :: rest).drop p.length)
            hlen
          simp [splitJoinFuel, hpre, e1, e2]
        · have e1 := ih f (Nat.lt_succ_self f) rest hs2
          have e2 := ih rest.length (Nat.lt_succ_of_le hs2) rest (le_refl _)
          simp [splitJoinFuel, hpre, e1, e2]

theorem splitJoin_cons_nomatch (p v : List Char) (c : Char) (rest : List Char)
    (h : ¬ p.isPrefixOf (c :: rest) = true) :
    splitJoin p v (c :: rest) = c :: splitJoin p v rest := by
  show splitJoinFuel p v (rest.length + 1) (c :: rest) = _
  simp only [splitJoinFuel, h, if_false]
  rfl

theorem splitJoin_match (p : List Char) (hp : p ≠ []) (v r : List Char) :
    splitJoin p v (p ++ r) = v ++ splitJoin p v r := by
  cases p with
  | nil => exact absurd rfl hp
  | cons a b =>
    have hpre : (a :: b).isPrefixOf (a :: (b ++ r)) = true := by
      show (a :: b).isPrefixOf ((a :: b) ++ r) = true
      rw [List.isPrefixOf_iff_prefix]
      exact List.prefix_append _ r
    show splitJoinFuel (a :: b) v ((b ++ r).length + 1) (a :: (b ++ r)) = _
    simp only [splitJoinFuel]
    rw [if_pos hpre]
    have hdrop : (a :: (b ++ r)).drop (a :: b).length = r := by
      show ((a :: b) ++ r).drop (a :: b).length = r
      exact List.drop_left _ _
    rw [hdrop]
    congr 1
    have : r.length ≤ (b ++ r).length := by simp
    exact splitJoinFuel_fuel_eq (a :: b) hp v (b ++ r).length r this

theorem braceFree_noOpen {s : List Char} (h : braceFree s = true) :
    noOpenBrace s = true := by
  simp only [braceFree, List.all_eq_true] at h
  simp only [noOpenBrace, List.all_eq_true]
  intro c hc
  have := h c hc
  simp at this ⊢
  exact this.1

theorem splitJoin_append_noOpen (p : List Char) (pt : List Char) (hp : p = '{' :: pt)
    (v : List Char) (a : List Char) (r : List Char) (ha : noOpenBrace a = true) :
    splitJoin p v (a ++ r) = a ++ splitJoin p v r := by
  induction a with
  | nil => simp
  | cons c a2 ih =>
    simp only [noOpenBrace, List.all_cons, Bool.and_eq_true] at ha
    have hc : ¬ c = '{' := by simpa using ha.1
    have hpre : ¬ p.isPrefixOf (c :: (a2 ++ r)) = true := by
      subst hp
      simp [List.isPrefixOf]
      intro h
      exact absurd h.symm hc
    rw [List.cons_append, splitJoin_cons_nomatch p v c (a2 ++ r) hpre,
      ih (by simpa [noOpenBrace] using ha.2)]
    rfl

theorem nameTailNotPrefix : ∀ (np nq r : List Char),
    braceFree np = true → braceFree nq = true → np ≠ nq →
    ¬ (np ++ ['}', '}']).isPrefixOf (nq ++ ['}', '}'] ++ r) = true := by
  intro np
  induction np with
  | nil =>
    intro nq r _ hq hne
    cases nq with
    | nil => exact absurd rfl hne
    | cons c nq2 =>
      simp only [braceFree, List.all_cons, Bool.and_eq_true] at hq
      have hc : ¬ c = '}' := by
        have := hq.1
        simp at this
        exact this.2
      simp [List.isPrefixOf]
      intro h
      exact absurd h.symm hc
  | cons a np2 ih =>
    intro nq r hp hne2 hne
    simp only [braceFree, List.all_cons, Bool.and_eq_true] at hp
    have ha : ¬ a = '}' := by
      have := hp.1
      simp at this
      exact this.2
    cases nq with
    | nil =>
      simp [List.isPrefixOf]
      intro h
      exact absurd h ha
    | cons b nq2 =>
      by_cases hab : a = b
      · subst hab
        have hne3 : np2 ≠ nq2 := by
          intro hcontra
          exact hne (by rw [hcontra])
        simp only [List.cons_append, List.isPrefixOf, beq_self_eq_true, Bool.true_and]
        simp only [braceFree, List.all_cons, Bool.and_eq_true] at hne2
        exact ih nq2 r hp.2 hne2.2 hne3
      · simp [List.isPrefixOf]
        intro h
        exact absurd h hab

theorem keyNotPrefixOfOtherKey (p q : String) (hp : wfKey p) (hq : wfKey q)
    (hne : p ≠ q) (r : List Char) :
    ¬ p.data.isPrefixOf (q.data ++ r) = true := by
  obtain ⟨np, hpd, hpf⟩ := hp
  obtain ⟨nq, hqd, hqf⟩ := hq
  have hnpq : np ≠ nq := by
    intro hcontra
    apply hne
    apply String.ext
    rw [hpd, hqd, hcontra]
  rw [hpd, hqd]
  have := nameTailNotPrefix np nq r hpf hqf hnpq
  simpa [List.isPrefixOf] using this

theorem splitJoin_key_skip (p q : String) (v : List Char)
    (hp : wfKey p) (hq : wfKey q) (hne : p ≠ q) (r : List Char) :
    splitJoin p.data v (q.data ++ r) = q.data ++ splitJoin p.data v r := by
  obtain ⟨np, hpd, hpf⟩ := hp
  obtain ⟨nq, hqd, hqf⟩ := hq
  have h0 : ¬ p.data.isPrefixOf (q.data ++ r) = true :=
    keyNotPrefixOfOtherKey p q ⟨np, hpd, hpf⟩ ⟨nq, hqd, hqf⟩ hne r
  have h1 : ¬ p.data.isPrefixOf ('{' :: ((nq ++ ['}', '}']) ++ r)) = true := by
    rw [hpd]
    cases nq with
    | nil => simp [List.isPrefixOf]
    | cons c nq2 =>
      have hc : ¬ c = '{' := by
        simp only [braceFree, List.all_cons, Bool.and_eq_true] at hqf
        have := hqf.1
        simp at this
        exact this.1
      simp [List.isPrefixOf]
      intro h
      exact absurd h.symm hc
  have hno : noOpenBrace (nq ++ ['}', '}']) = true := by
    simp only [noOpenBrace, List.all_append, Bool.and_eq_true]
    exact ⟨braceFree_noOpen hqf, by decide⟩
  have hq0 : q.data ++ r = '{' :: '{' :: ((nq ++ ['}', '}']) ++ r) := by
    rw [hqd]
    simp
  rw [hq0]
  rw [splitJoin_cons_nomatch p.data v '{' ('{' :: ((nq ++ ['}', '}']) ++ r))
    (by rw [← hq0]; exact h0)]
  rw [splitJoin_cons_nomatch p.data v '{' ((nq ++ ['}', '}']) ++ r) h1]
  rw [splitJoin_append_noOpen p.data ('{' :: (np ++ ['}', '}'])) hpd v
    (nq ++ ['}', '}']) r hno]
  rw [hqd]
  simp

theorem splitJoin_key_hit (p : String) (hp : wfKey p) (v r : List Char) :
    splitJoin p.data v (p.data ++ r) = v ++ splitJoin p.data v r := by
  obtain ⟨np, hpd, _⟩ := hp
  exact splitJoin_match p.data (by rw [hpd]; simp) v r

theorem splitJoin_flat (p : String) (v : List Char) (hp : wfKey p)
    (segs : List TplSeg) (hsegs : ∀ seg ∈ segs, SegOk seg) :
    splitJoin p.data v (TplSeg.flat segs) = TplSeg.flat (segs.map (substOne p v)) := by
  induction segs with
  | nil => exact splitJoin_nil p.data v
  | cons seg rest ih =>
    have hrest : ∀ s ∈ rest, SegOk s := fun s hs => hsegs s (List.mem_cons_of_mem _ hs)
    have hseg : SegOk seg := hsegs seg (List.mem_cons_self _ _)
    cases seg with
    | lit a =>
      show splitJoin p.data v (a ++ TplSeg.flat rest) = _
      obtain ⟨np, hpd, hpf⟩ := hp
      rw [splitJoin_append_noOpen p.data ('{' :: (np ++ ['}', '}'])) hpd v a
        (TplSeg.flat rest) (braceFree_noOpen hseg), ih hrest]
      rfl
    | var q =>
      by_cases hq : q = p
      · subst hq
        show splitJoin q.data v (q.data ++ TplSeg.flat rest) = _
        rw [splitJoin_key_hit q hp v (TplSeg.flat rest), ih hrest]
        simp [substOne, TplSeg.flat]
      · show splitJoin p.data v (q.data ++ TplSeg.flat rest) = _
        rw [splitJoin_key_skip p q v hp hseg (fun h => hq h.symm) (TplSeg.flat rest),
          ih hrest]
        simp [substOne, hq, TplSeg.flat]

theorem substAll_lit (subs : List (String × String)) (a : List Char) :
    substAll subs (TplSeg.lit a) = TplSeg.lit a := by
  induction subs with
  | nil => rfl
  | cons kv rest ih =>
    show substAll rest (substOne kv.1 kv.2.data (TplSeg.lit a)) = _
    simpa [substOne] using ih

theorem substAll_var (subs : List (String × String)) (k : String) :
    substAll subs (TplSeg.var k)
      = (match lookupValue subs k with
         | some v => TplSeg.lit v.data
         | none => TplSeg.var k) := by
  induction subs with
  | nil => rfl
  | cons kv rest ih =>
    show substAll rest (substOne kv.1 kv.2.data (TplSeg.var k)) = _
    by_cases hk : k = kv.1
    · simp only [substOne, if_pos hk, substAll_lit]
      have : (kv.1 == k) = true := by simp [hk]
      simp [lookupValue, List.find?, this]
    · simp only [substOne, if_neg hk]
      have : (kv.1 == k) = false := by simp; exact fun h => hk h.symm
      rw [ih]
      simp [lookupValue, List.find?, this]

theorem applySubsts_data (subs : List (String × String)) (s : String) :
    (applySubsts subs s).data
      = subs.foldl (fun acc kv => splitJoin kv.1.data kv.2.data acc) s.data := rfl

theorem applySubsts_flat : ∀ (subs : List (String × String)) (segs : List TplSeg),
    (∀ kv ∈ subs, wfKey kv.1) →
    (∀ kv ∈ subs, braceFree kv.2.data = true) →
    (∀ seg ∈ segs, SegOk seg) →
    (applySubsts subs (String.mk (TplSeg.flat segs))).data
      = TplSeg.flat (segs.map (substAll subs)) := by
  intro subs
  induction subs with
  | nil =>
    intro segs _ _ _
    show TplSeg.flat segs = TplSeg.flat (segs.map (substAll []))
    have h : ∀ l : List TplSeg, l.map (substAll []) = l := by
      intro l
      induction l with
      | nil => rfl
      | cons sg t iht =>
        show substAll [] sg :: t.map (substAll []) = sg :: t
        rw [iht]
        rfl
    rw [h segs]
  | cons kv subs2 ih =>
    intro segs hkeys hvals hsegs
    have hsegs2 : ∀ seg ∈ segs.map (substOne kv.1 kv.2.data), SegOk seg := by
      intro seg hseg
      obtain ⟨seg0, hseg0, rfl⟩ := List.mem_map.mp hseg
      have hok := hsegs seg0 hseg0
      cases seg0 with
      | lit a => exact hok
      | var k =>
        by_cases hk : k = kv.1
        · simp only [substOne, if_pos hk]
          exact hvals kv (List.mem_cons_self _ _)
        · simp only [substOne, if_neg hk]
          exact hok
    have hstep : splitJoin kv.1.data kv.2.data (TplSeg.flat segs)
        = TplSeg.flat (segs.map (substOne kv.1 kv.2.data)) :=
      splitJoin_flat kv.1 kv.2.data (hkeys kv (List.mem_cons_self _ _)) segs hsegs
    have hk2 : ∀ kv2 ∈ subs2, wfKey kv2.1 :=
      fun kv2 h => hkeys kv2 (List.mem_cons_of_mem _ h)
    have hv2 : ∀ kv2 ∈ subs2, braceFree kv2.2.data = true :=
      fun kv2 h => hvals kv2 (List.mem_cons_of_mem _ h)
    calc (applySubsts (kv :: subs2) (String.mk (TplSeg.flat segs))).data
        = (applySubsts subs2
            (String.mk (splitJoin kv.1.data kv.2.data (TplSeg.flat segs)))).data := rfl
      _ = (applySubsts subs2
            (String.mk (TplSeg.flat (segs.map (substOne kv.1 kv.2.data))))).data := by
          rw [hstep]
      _ = TplSeg.flat ((segs.map (substOne kv.1 kv.2.data)).map (substAll subs2)) :=
          ih (segs.map (substOne kv.1 kv.2.data)) hk2 hv2 hsegs2
      _ = TplSeg.flat (segs.map (substAll (kv :: subs2))) := by
          rw [List.map_map]
          rfl

theorem substAll_flat_noOpen : ∀ (subs : List (String × String)) (segs : List TplSeg),
    (∀ kv ∈ subs, braceFree kv.2.data = true) →
    (∀ seg ∈ segs, SegOk seg) →
    (∀ k, TplSeg.var k ∈ segs → ∃ kv ∈ subs, kv.1 = k) →
    noOpenBrace (TplSeg.flat (segs.map (substAll subs))) = true := by
  intro subs segs
  induction segs with
  | nil => intro _ _ _; rfl
  | cons seg rest ih =>
    intro hvals hsegs hcover
    have hrest := ih hvals (fun s hs => hsegs s (List.mem_cons_of_mem _ hs))
      (fun k hk => hcover k (List.mem_cons_of_mem _ hk))
    have hhead : noOpenBrace (TplSeg.flat [substAll subs seg]) = true := by
      cases seg with
      | lit a =>
        rw [substAll_lit]
        show noOpenBrace (a ++ []) = true
        simpa using braceFree_noOpen (hsegs (TplSeg.lit a) (List.mem_cons_self _ _))
      | var k =>
        obtain ⟨kv, hkv, hkeq⟩ := hcover k (List.mem_cons_self _ _)
        have hsome : (subs.find? (fun kv2 => kv2.1 == k)).isSome := by
          rw [List.find?_isSome]
          exact ⟨kv, hkv, by simp [hkeq]⟩
        obtain ⟨kv0, hkv0⟩ := Option.isSome_iff_exists.mp hsome
        have hkv0mem : kv0 ∈ subs := List.mem_of_find?_eq_some hkv0
        have hlook : lookupValue subs k = some kv0.2 := by
          simp [lookupValue, hkv0]
        rw [substAll_var, hlook]
        show noOpenBrace (kv0.2.data ++ []) = true
        simpa using braceFree_noOpen (hvals kv0 hkv0mem)
    show noOpenBrace (TplSeg.flat (substAll subs seg :: rest.map (substAll subs))) = true
    have hcat : TplSeg.flat (substAll subs seg :: rest.map (substAll subs))
        = TplSeg.flat [substAll subs seg] ++ TplSeg.flat (rest.map (substAll subs)) := by
      cases substAll subs seg with
      | lit a => simp [TplSeg.flat]
      | var q => simp [TplSeg.flat]
    rw [hcat]
    simp only [noOpenBrace, List.all_append, Bool.and_eq_true]
    exact ⟨hhead, hrest⟩

theorem wfKey_not_infix_of_noOpen (k : String) (hk : wfKey k) (s : List Char)
    (hs : noOpenBrace s = true) : ¬ k.data <:+: s := by
  intro hinf
  have hmem : '{' ∈ k.data := by
    obtain ⟨n, hd, _⟩ := hk
    rw [hd]
    simp
  have hmem2 : '{' ∈ s := hinf.sublist.subset hmem
  simp only [noOpenBrace, List.all_eq_true] at hs
  have := hs '{' hmem2
  simp at this

theorem lookupValue_eq_some_iff : ∀ (subs : List (String × String)),
    (subs.map Prod.fst).Nodup → ∀ (k v : String),
    (lookupValue subs k = some v ↔ (k, v) ∈ subs) := by
  intro subs
  induction subs with
  | nil => intro _ k v; simp [lookupValue]
  | cons kv rest ih =>
    intro hnd k v
    have hnd2 : (rest.map Prod.fst).Nodup := (List.nodup_cons.mp hnd).2
    have hnotin : kv.1 ∉ rest.map Prod.fst := (List.nodup_cons.mp hnd).1
    by_cases hk : kv.1 = k
    · have hbeq : (kv.1 == k) = true := by simp [hk]
      constructor
      · intro h
        simp [lookupValue, List.find?, hbeq] at h
        exact List.mem_cons.mpr (Or.inl (by rw [← hk, ← h]))
      · intro h
        rcases List.mem_cons.mp h with h | h
        · simp [lookupValue, List.find?, hbeq]
          rw [← h]
        · exfalso
          apply hnotin
          rw [hk]
          exact List.mem_map.mpr ⟨(k, v), h, rfl⟩
    · have hbeq : (kv.1 == k) = false := beq_eq_false_iff_ne.mpr hk
      constructor
      · intro h
        simp only [lookupValue, List.find?, hbeq] at h
        right
        exact (ih hnd2 k v).mp h
      · intro h
        rcases List.mem_cons.mp h with h | h
        · exfalso
          apply hk
          rw [← h]
        · simp only [lookupValue, List.find?, hbeq]
          exact (ih hnd2 k v).mpr h

theorem lookupValue_eq_none_iff (subs : List (String × String)) (k : String) :
    lookupValue subs k = none ↔ k ∉ subs.map Prod.fst := by
  constructor
  · intro h hmem
    obtain ⟨kv, hkv, hfst⟩ := List.mem_map.mp hmem
    have hfind : subs.find? (fun kv2 => kv2.1 == k) = none := by
      cases hf : subs.find? (fun kv2 => kv2.1 == k) with
      | none => rfl
      | some kv2 => simp [lookupValue, hf] at h
    have := List.find?_eq_none.mp hfind kv hkv
    simp [hfst] at this
  · intro h
    have hfind : subs.find? (fun kv2 => kv2.1 == k) = none := by
      rw [List.find?_eq_none]
      intro kv hkv
      simp
      intro hfst
      exact absurd (List.mem_map.mpr ⟨kv, hkv, hfst⟩) h
    simp [lookupValue, hfind]

theorem lookupValue_perm (subs subs2 : List (String × String))
    (hperm : subs2.Perm subs) (hnd : (subs.map Prod.fst).Nodup) (k : String) :
    lookupValue subs2 k = lookupValue subs k := by
  have hnd2 : (subs2.map Prod.fst).Nodup := ((hperm.map Prod.fst).nodup_iff).mpr hnd
  cases h2 : lookupValue subs2 k with
  | some v =>
    have hmem : (k, v) ∈ subs2 := (lookupValue_eq_some_iff subs2 hnd2 k v).mp h2
    exact ((lookupValue_eq_some_iff subs hnd k v).mpr (hperm.subset hmem)).symm
  | none =>
    have hnot : k ∉ subs2.map Prod.fst := (lookupValue_eq_none_iff subs2 k).mp h2
    have hnot2 : k ∉ subs.map Prod.fst := by
      intro h
      exact hnot (((hperm.map Prod.fst).mem_iff).mpr h)
    exact ((lookupValue_eq_none_iff subs k).mpr hnot2).symm

theorem substAll_perm (subs subs2 : List (String × String))
    (hperm : subs2.Perm subs) (hnd : (subs.map Prod.fst).Nodup) (seg : TplSeg) :
    substAll subs2 seg = substAll subs seg := by
  cases seg with
  | lit a => rw [substAll_lit, substAll_lit]
  | var k => rw [substAll_var, substAll_var, lookupValue_perm subs subs2 hperm hnd k]

theorem foldl_splitJoin_nil (subs : List (String × String)) :
    subs.foldl (fun acc kv => splitJoin kv.1.data kv.2.data acc) [] = [] := by
  induction subs with
  | nil => rfl
  | cons kv rest ih =>
    show rest.foldl _ (splitJoin kv.1.data kv.2.data []) = []
    rw [splitJoin_nil]
    exact ih

theorem applySubsts_key_to_empty : ∀ (subs : List (String × String)) (k : String),
    (∀ kv ∈ subs, wfKey kv.1) → wfKey k → lookupValue subs k = some "" →
    applySubsts subs k = "" := by
  intro subs
  induction subs with
  | nil =>
    intro k _ _ h
    simp [lookupValue] at h
  | cons kv rest ih =>
    intro k hkeys hk hlook
    by_cases hkk : kv.1 = k
    · have hbeq : (kv.1 == k) = true := by simp [hkk]
      have hv : kv.2 = "" := by
        simp [lookupValue, List.find?, hbeq] at hlook
        exact hlook
      have hdata : splitJoin kv.1.data kv.2.data k.data = kv.2.data := by
        rw [hkk]
        have h0 := splitJoin_key_hit k hk kv.2.data []
        rw [List.append_nil, splitJoin_nil, List.append_nil] at h0
        exact h0
      apply String.ext
      show (applySubsts rest (String.mk (splitJoin kv.1.data kv.2.data k.data))).data = _
      rw [hdata, hv]
      show rest.foldl _ [] = _
      rw [foldl_splitJoin_nil]
    · have hbeq : (kv.1 == k) = false := beq_eq_false_iff_ne.mpr hkk
      have hlook2 : lookupValue rest k = some "" := by
        simpa [lookupValue, List.find?, hbeq] using hlook
      have hdata : splitJoin kv.1.data kv.2.data k.data = k.data := by
        have h0 := splitJoin_key_skip kv.1 k kv.2.data
          (hkeys kv (List.mem_cons_self _ _)) hk hkk []
        rw [List.append_nil, splitJoin_nil, List.append_nil] at h0
        exact h0
      have hrec := ih k (fun kv2 h => hkeys kv2 (List.mem_cons_of_mem _ h)) hk hlook2
      apply String.ext
      show (applySubsts rest (String.mk (splitJoin kv.1.data kv.2.data k.data))).data = _
      rw [hdata]
      exact congrArg String.data hrec

theorem knownKeys_wf : ∀ k ∈ knownKeys, wfKey k := by
  intro k hk
  simp only [knownKeys, List.mem_cons, List.not_mem_nil, or_false] at hk
  rcases hk with h | h | h | h | h | h | h | h | h <;> subst h
  · exact ⟨"NODE_ID".data, rfl, by decide⟩
  · exact ⟨"NODE_NAME".data, rfl, by decide⟩
  · exact ⟨"DOMAIN".data, rfl, by decide⟩
  · exact ⟨"PORT".data, rfl, by decide⟩
  · exact ⟨"PROXY_TYPE".data, rfl, by decide⟩
  · exact ⟨"HOST_IP".data, rfl, by decide⟩
  · exact ⟨"HOST_IPV6".data, rfl, by decide⟩
  · exact ⟨"HOST_REGION".data, rfl, by decide⟩
  · exact ⟨"ADDITIONAL_PORTS".data, rfl, by decide⟩

theorem replacements_keys (ctx : NodeConfigContext) :
    (replacements ctx).map Prod.fst = knownKeys := rfl

theorem replacements_keys_wf (ctx : NodeConfigContext) :
    ∀ kv ∈ replacements ctx, wfKey kv.1 := by
  intro kv hkv
  exact knownKeys_wf kv.1
    (replacements_keys ctx ▸ List.mem_map.mpr ⟨kv, hkv, rfl⟩)

theorem knownKeys_nodup : knownKeys.Nodup := by decide

/-! ## Renderer claim theorems -/

set_option maxHeartbeats 2000000 in
/-- C7 counterexample: substitution is neither single-pass per placeholder
nor order-independent.  On the template `{{NOD{{DOMAIN}}E_ID}}` with the
empty-domain context, the `{{DOMAIN}}` pass splices its (empty) value into
the surrounding text and later passes re-scan the result, so the rendered
output is the literal `{{NODE_ID}}` — a known placeholder key left in the
output — while processing the same substitution map with `{{DOMAIN}}` first
instead yields `1`. -/
theorem replaceVariables_value_rescanned :
    replaceVariables "{{NOD{{DOMAIN}}E_ID}}" c7Ctx = "{{NODE_ID}}" ∧
    "{{NODE_ID}}" ∈ knownKeys ∧
    ("{{NODE_ID}}", "1") ∈ replacements c7Ctx ∧
    c7Perm.Perm (replacements c7Ctx) ∧
    applySubsts c7Perm "{{NOD{{DOMAIN}}E_ID}}" = "1" := by
  refine ⟨by decide, by decide, by decide, by decide, by decide⟩

/-- C7 (amended): for every template assembled from brace-free literal
chunks and known placeholders, and every context whose substitution values
contain no brace character, `replaceVariables` equals the simultaneous
single-pass substitution of the placeholder segments (exact and
non-overlapping), its output retains no known placeholder token, and every
processing order of the substitution map produces the same output.  Without
these restrictions the sequential passes re-scan previously inserted text
(see the counterexample). -/
theorem replaceVariables_simultaneous_on_wf_templates
    (ctx : NodeConfigContext) (segs : List TplSeg)
    (hsegs : ∀ seg ∈ segs, SegOk seg)
    (hcover : ∀ k, TplSeg.var k ∈ segs → k ∈ knownKeys)
    (hvals : ∀ kv ∈ replacements ctx, braceFree kv.2.data = true) :
    (replaceVariables (String.mk (TplSeg.flat segs)) ctx).data
        = TplSeg.flat (segs.map (substAll (replacements ctx))) ∧
    (∀ k ∈ knownKeys,
        ¬ k.data <:+: (replaceVariables (String.mk (TplSeg.flat segs)) ctx).data) ∧
    (∀ subs2 : List (String × String), subs2.Perm (replacements ctx) →
        applySubsts subs2 (String.mk (TplSeg.flat segs))
          = replaceVariables (String.mk (TplSeg.flat segs)) ctx) := by
  have hkeys := replacements_keys_wf ctx
  have h1 : (replaceVariables (String.mk (TplSeg.flat segs)) ctx).data
      = TplSeg.flat (segs.map (substAll (replacements ctx))) :=
    applySubsts_flat (replacements ctx) segs hkeys hvals hsegs
  have hcover2 : ∀ k, TplSeg.var k ∈ segs → ∃ kv ∈ replacements ctx, kv.1 = k := by
    intro k hk
    have hmem : k ∈ (replacements ctx).map Prod.fst := by
      rw [replacements_keys]
      exact hcover k hk
    obtain ⟨kv, hkv, hfst⟩ := List.mem_map.mp hmem
    exact ⟨kv, hkv, hfst⟩
  refine ⟨h1, ?_, ?_⟩
  · intro k hk hinf
    rw [h1] at hinf
    have hno := substAll_flat_noOpen (replacements ctx) segs hvals hsegs hcover2
    exact wfKey_not_infix_of_noOpen k (knownKeys_wf k hk) _ hno hinf
  · intro subs2 hperm
    have hnd : ((replacements ctx).map Prod.fst).Nodup := by
      rw [replacements_keys]
      exact knownKeys_nodup
    have hkeys2 : ∀ kv ∈ subs2, wfKey kv.1 := fun kv h => hkeys kv (hperm.subset h)
    have hvals2 : ∀ kv ∈ subs2, braceFree kv.2.data = true :=
      fun kv h => hvals kv (hperm.subset h)
    have h2 := applySubsts_flat subs2 segs hkeys2 hvals2 hsegs
    have h3 : segs.map (substAll subs2) = segs.map (substAll (replacements ctx)) :=
      List.map_congr_left
        (fun seg _ => substAll_perm (replacements ctx) subs2 hperm hnd seg)
    apply String.ext
    rw [h2, h1, h3]

/-- Witness for the amended C7 theorem on a concrete well-formed template
and the spec's scenario context: the render equals the simultaneous
substitution, leaves no `{{DOMAIN}}` token, and the reversed processing
order gives the same output. -/
theorem replaceVariables_simultaneous_on_wf_templates_witness :
    (replaceVariables (String.mk (TplSeg.flat c7wSegs)) c8Ctx).data
        = TplSeg.flat (c7wSegs.map (substAll (replacements c8Ctx))) ∧
    ¬ ("{{DOMAIN}}" : String).data
        <:+: (replaceVariables (String.mk (TplSeg.flat c7wSegs)) c8Ctx).data ∧
    applySubsts (replacements c8Ctx).reverse (String.mk (TplSeg.flat c7wSegs))
        = replaceVariables (String.mk (TplSeg.flat c7wSegs)) c8Ctx := by
  have hsegs : ∀ seg ∈ c7wSegs, SegOk seg := by
    intro seg hseg
    simp only [c7wSegs, List.mem_cons, List.not_mem_nil, or_false] at hseg
    rcases hseg with h | h | h | h <;> subst h
    · show braceFree "server=".data = true
      decide
    · exact knownKeys_wf _ (by decide)
    · show braceFree ":".data = true
      decide
    · exact knownKeys_wf _ (by decide)
  have hcover : ∀ k, TplSeg.var k ∈ c7wSegs → k ∈ knownKeys := by
    intro k hk
    simp [c7wSegs] at hk
    rcases hk with h | h <;> subst h <;> decide
  have hvals : ∀ kv ∈ replacements c8Ctx, braceFree kv.2.data = true := by decide
  have h := replaceVariables_simultaneous_on_wf_templates c8Ctx c7wSegs hsegs hcover hvals
  exact ⟨h.1, h.2.1 "{{DOMAIN}}" (by decide),
    h.2.2 (replacements c8Ctx).reverse (List.reverse_perm _)⟩

/-- C8: for every render context without a linked host, the three
host-derived placeholders substitute to the empty string (never the literal
text `null` or `undefined`), each node-derived placeholder substitutes to
its context value, and rendering a host placeholder indeed produces the
empty string. -/
theorem render_no_host_empty_substitutions (ctx : NodeConfigContext)
    (hhost : ctx.host = none) :
    lookupValue (replacements ctx) "{{HOST_IP}}" = some "" ∧
    lookupValue (replacements ctx) "{{HOST_IPV6}}" = some "" ∧
    lookupValue (replacements ctx) "{{HOST_REGION}}" = some "" ∧
    ("" : String) ≠ "null" ∧ ("" : String) ≠ "undefined" ∧
    lookupValue (replacements ctx) "{{NODE_ID}}" = some (toString ctx.id) ∧
    lookupValue (replacements ctx) "{{NODE_NAME}}" = some ctx.name ∧
    lookupValue (replacements ctx) "{{DOMAIN}}" = some ctx.domain ∧
    lookupValue (replacements ctx) "{{PORT}}" = some (toString ctx.port) ∧
    lookupValue (replacements ctx) "{{PROXY_TYPE}}" = some ctx.proxyType ∧
    lookupValue (replacements ctx) "{{ADDITIONAL_PORTS}}"
      = some (String.intercalate "," (ctx.additionalPorts.map toString)) ∧
    replaceVariables "{{HOST_IP}}" ctx = "" ∧
    replaceVariables "{{HOST_IPV6}}" ctx = "" ∧
    replaceVariables "{{HOST_REGION}}" ctx = "" := by
  have hip : lookupValue (replacements ctx) "{{HOST_IP}}" = some "" := by
    simp [lookupValue, replacements, List.find?, hhost, jsOrEmpty]
  have hip6 : lookupValue (replacements ctx) "{{HOST_IPV6}}" = some "" := by
    simp [lookupValue, replacements, List.find?, hhost, jsOrEmpty]
  have hreg : lookupValue (replacements ctx) "{{HOST_REGION}}" = some "" := by
    simp [lookupValue, replacements, List.find?, hhost, jsOrEmpty]
  refine ⟨hip, hip6, hreg, by decide, by decide, ?_, ?_, ?_, ?_, ?_, ?_, ?_, ?_, ?_⟩
  · simp [lookupValue, replacements, List.find?]
  · simp [lookupValue, replacements, List.find?]
  · simp [lookupValue, replacements, List.find?]
  · simp [lookupValue, replacements, List.find?]
  · simp [lookupValue, replacements, List.find?]
  · simp [lookupValue, replacements, List.find?]
  · exact applySubsts_key_to_empty (replacements ctx) "{{HOST_IP}}"
      (replacements_keys_wf ctx) (knownKeys_wf _ (by decide)) hip
  · exact applySubsts_key_to_empty (replacements ctx) "{{HOST_IPV6}}"
      (replacements_keys_wf ctx) (knownKeys_wf _ (by decide)) hip6
  · exact applySubsts_key_to_empty (replacements ctx) "{{HOST_REGION}}"
      (replacements_keys_wf ctx) (knownKeys_wf _ (by decide)) hreg

/-- Witness for the C8 theorem at the spec's scenario context. -/
theorem render_no_host_empty_substitutions_witness :
    lookupValue (replacements c8Ctx) "{{HOST_IP}}" = some "" ∧
    lookupValue (replacements c8Ctx) "{{DOMAIN}}" = some c8Ctx.domain ∧
    lookupValue (replacements c8Ctx) "{{PORT}}" = some (toString c8Ctx.port) ∧
    lookupValue (replacements c8Ctx) "{{ADDITIONAL_PORTS}}"
      = some (String.intercalate "," (c8Ctx.additionalPorts.map toString)) ∧
    replaceVariables "{{HOST_IP}}" c8Ctx = "" := by
  have h := render_no_host_empty_substitutions c8Ctx rfl
  obtain ⟨h1, h2, h3, h4, h5, h6, h7, h8, h9, h10, h11, h12, h13, h14⟩ := h
  exact ⟨h1, h8, h9, h11, h12⟩

end NodeHub
